import Mathlib

/-!
Shallow embedding of the CCC RAW-DATA extraction pipeline
(repository Elietshi1004/cccprojet2).

Embedded source files:
* `src/MiniProjet_CCC_ElieTshingombe/src/utils.py` : `clean_decimal`,
  `normalize_unit`, `normalize_header` (this is the `utils` module imported
  by the top-level `parser_mod.py`).
* `src/parser_mod.py` (top level) : `extract_all_sample_ids`,
  `extract_all_configurations`, `extract_measurements_for_configuration`,
  `extract_measurements_from_table`.
* `src/rules.py` : `process_data`, `compute_section_and_global`.

Python strings are modelled by `String`, Python floats by `ℚ` (the numeric
values handled by the pipeline are short decimal literals, exactly
representable), dictionaries by insertion-ordered association lists.
-/

/-! ## Python string primitives -/

/-- Python `str.lower` (the characters occurring in the repository are ASCII
letters, digits, punctuation and the micro sign, on which ASCII lowering
agrees with Python). -/
def pyLower (s : String) : String := String.mk (s.data.map Char.toLower)

/-- Python `str.upper`, same ASCII caveat as `pyLower`. -/
def pyUpper (s : String) : String := String.mk (s.data.map Char.toUpper)

/-- Whitespace stripped by Python `str.strip()`. -/
def pyWS (c : Char) : Bool :=
  c == ' ' || c == '\t' || c == '\n' || c == '\r' || c == '\x0b' || c == '\x0c'

/-- Python `str.strip()`. -/
def pyStrip (s : String) : String :=
  String.mk (((s.data.dropWhile pyWS).reverse.dropWhile pyWS).reverse)

/-- `containsSub pat hay` is Python `pat in hay` on character lists. -/
def containsSub (pat : List Char) : List Char → Bool
  | [] => pat.isEmpty
  | c :: t => pat.isPrefixOf (c :: t) || containsSub pat t

/-- Python `pat in hay` for strings. -/
def strContains (hay pat : String) : Bool := containsSub pat.data hay.data

/-- Python `str.replace` over character lists (left-to-right,
non-overlapping; the repository never calls `replace` with an empty
pattern, on which this model leaves the string unchanged).  Structural
recursion on a fuel bounded by the list length: every step consumes at
least one character, so the fuel never runs out. -/
def replaceGo (pat rep : List Char) : Nat → List Char → List Char
  | 0, l => l
  | _ + 1, [] => []
  | fuel + 1, c :: t =>
    if pat.isPrefixOf (c :: t) ∧ pat ≠ [] then
      rep ++ replaceGo pat rep fuel (t.drop (pat.length - 1))
    else
      c :: replaceGo pat rep fuel t

/-- Entry point of the `str.replace` model. -/
def replaceL (pat rep l : List Char) : List Char :=
  replaceGo pat rep l.length l

/-- Python `s.replace(pat, rep)`. -/
def pyReplace (s pat rep : String) : String :=
  String.mk (replaceL pat.data rep.data s.data)

/-- Python `s.split(sep)` over character lists, fuel-based like `replaceGo`. -/
def splitGo (sep : List Char) : Nat → List Char → List Char → List (List Char)
  | 0, cur, rest => [cur ++ rest]
  | _ + 1, cur, [] => [cur]
  | fuel + 1, cur, c :: t =>
    if sep.isPrefixOf (c :: t) ∧ sep ≠ [] then
      cur :: splitGo sep fuel [] (t.drop (sep.length - 1))
    else splitGo sep fuel (cur ++ [c]) t

/-- Python `s.split(sep)` (for a non-empty separator). -/
def pySplit (s sep : String) : List String :=
  (splitGo sep.data (s.data.length + 1) [] s.data).map String.mk

/-- Python `sep.join(parts)`. -/
def pyJoin (sep : String) : List String → String
  | [] => ""
  | [x] => x
  | x :: y :: t => x ++ sep ++ pyJoin sep (y :: t)

/-- Numeric value of a digit list (most significant first). -/
def natOfDigits (l : List Char) : Nat :=
  l.foldl (fun a c => a * 10 + (c.toNat - 48)) 0

/-- Negation of a rational, written through `mkRat` so that the kernel can
evaluate it (the library arithmetic on `ℚ` is `@[irreducible]`). -/
def qneg (q : ℚ) : ℚ := mkRat (-q.num) q.den

/-- Subtraction `a - b` on `ℚ`, written through `mkRat` so that the kernel
can evaluate it; `qsub_eq` identifies it with `Sub.sub`. -/
def qsub (a b : ℚ) : ℚ := mkRat (a.num * b.den - b.num * a.den) (a.den * b.den)

/-- `0 ≤ q` as a computable Boolean (the denominator of a `Rat` is
positive, so the sign is the sign of the numerator). -/
def qnn (q : ℚ) : Bool := decide (0 ≤ q.num)

/-- Unsigned part of Python `float(...)` parsing, restricted to the plain
decimal forms occurring in the documents (optional single dot; no exponent,
infinity or nan forms, which never appear in the data handled here). -/
def parseUnsigned (l : List Char) : Option ℚ :=
  let intPart := l.takeWhile (fun c => c != '.')
  let rest := l.dropWhile (fun c => c != '.')
  match rest with
  | [] =>
    if !intPart.isEmpty && intPart.all Char.isDigit then
      some (mkRat (natOfDigits intPart) 1)
    else none
  | _ :: frac =>
    if frac.contains '.' then none
    else if intPart.isEmpty && frac.isEmpty then none
    else if intPart.all Char.isDigit && frac.all Char.isDigit then
      some (mkRat (natOfDigits intPart * 10 ^ frac.length + natOfDigits frac) (10 ^ frac.length))
    else none

/-- Python `float(s)` on an already-stripped string: `some` value on
success, `none` where Python raises `ValueError`. -/
def pyParseFloat (s : String) : Option ℚ :=
  match s.data with
  | '-' :: t => (parseUnsigned t).map qneg
  | '+' :: t => parseUnsigned t
  | l => parseUnsigned l

/-- Round a rational to the nearest integer, ties to even (the rounding of
Python `round`). -/
def rndHalfEven (r : ℚ) : ℤ :=
  let f : ℤ := r.num.fdiv r.den
  let t : ℤ := 2 * (r.num - f * r.den)
  if t < r.den then f
  else if (r.den : ℤ) < t then f + 1
  else if f % 2 = 0 then f else f + 1

/-- Python `round(q, 2)`: round to two decimal places, ties to even.  The
floats of the pipeline are modelled as exact rationals, so this is the
decimal rounding that Python performs on the corresponding values. -/
def round2 (q : ℚ) : ℚ :=
  mkRat (rndHalfEven (mkRat (100 * q.num) q.den)) 100

/-! ## Values and measurement records -/

/-- A Python value held in a measurement dictionary: a float or a string. -/
inductive Value where
  | num (q : ℚ)
  | str (s : String)
deriving DecidableEq

/-- A measurement record: a Python dict as an insertion-ordered association
list with pairwise distinct keys. -/
abbrev Meas := List (String × Value)

/-- Dict read: `m[k]` / `m.get(k)` (keys are pairwise distinct, so the
first match is the entry). -/
def mlookup (m : Meas) (k : String) : Option Value :=
  match m with
  | [] => none
  | (k0, v0) :: t => if k0 == k then some v0 else mlookup t k

/-- Python `m.get(k, d)`. -/
def mgetD (m : Meas) (k : String) (d : Value) : Value :=
  (mlookup m k).getD d

/-- Dict write `m[k] = v`: replaces in place, else appends (Python dict
insertion-order semantics). -/
def mupsert (m : Meas) (k : String) (v : Value) : Meas :=
  match m with
  | [] => [(k, v)]
  | (k0, v0) :: t => if k0 == k then (k0, v) :: t else (k0, v0) :: mupsert t k v

/-- Keys of a record, in order. -/
def mkeys (m : Meas) : List String := m.map (fun p => p.1)

/-! ## utils.py -/

/-- `utils.clean_decimal`: replace decimal commas, strip, parse as float;
on failure return the stripped original text. -/
def clean_decimal (v : String) : Value :=
  match pyParseFloat (pyStrip (pyReplace v "," ".")) with
  | some q => Value.num q
  | none => Value.str (pyStrip v)

/-- `utils.normalize_unit`: the chained `str.replace` substitution pass. -/
def normalize_unit (u : String) : String :=
  pyReplace (pyReplace (pyReplace (pyReplace (pyReplace (pyReplace (pyReplace
    (pyReplace (pyReplace u "Âµ" "µ") "dBμV" "dBµV")
    "Lim.Avg" "Limit Avg") "Lim.Peak" "Limit Peak")
    "Lim.Q-Peak" "Limit Q-Peak") "CISPR.AVG" "CISPR Avg")
    "Peak-Lim.Peak" "Peak-Limit Peak")
    "Q-Peak-Lim.Q-Peak" "Q-Peak-Limit Q-Peak")
    "CISPR.AVG-Lim.Avg" "CISPR.AVG-Limit Avg"

/-- The ordered `(pattern, canonical)` rule list of `utils.normalize_header`. -/
def priority_mappings : List (String × String) :=
  [("cispr avg-limit avg", "Margin (dB)"),
   ("peak-limit peak", "Margin (dB)"),
   ("q-peak-limit q-peak", "Margin (dB)"),
   ("peak-limit", "Margin (dB)"),
   ("cispr-limit", "Margin (dB)"),
   ("q-peak-limit", "Margin (dB)"),
   ("limit peak", "Limit Peak (dBµV/m)"),
   ("limit avg", "Limit Avg (dBµV/m)"),
   ("limit q-peak", "Limit Q-Peak (dBµV/m)"),
   ("cispr avg", "CISPR.AVG (dBµV/m)"),
   ("q-peak", "Q-Peak (dBµV/m)"),
   ("peak", "Peak (dBµV/m)"),
   ("cispr", "CISPR.AVG (dBµV/m)"),
   ("frequency", "Frequency (MHz)"),
   ("detector", "Detector type"),
   ("comment", "Comment"),
   ("applied limit", "Applied limit"),
   ("margin", "Margin (dB)"),
   ("antenna position", "Antenna Position"),
   ("polarization", "Polarization")]

/-- The ordered-rule loop of `utils.normalize_header`: return the canonical
label of the first rule whose pattern occurs in the cleaned header, `none`
when no rule matches. -/
def applyRules : List (String × String) → String → Option String
  | [], _ => none
  | (pat, std) :: rest, c => if strContains c pat then some std else applyRules rest c

/-- `utils.normalize_header`: lower-cased stripped substring match against
the ordered rule list, first match wins, unmatched headers pass through. -/
def normalize_header (h : String) : String :=
  match applyRules priority_mappings (pyLower (pyStrip h)) with
  | some std => std
  | none => h

/-! ## parser_mod.py : document model and configuration discovery -/

/-- A table row: the list of its cell texts. -/
abbrev Row := List String

/-- A document table (a Block): its rows. -/
abbrev Table := List Row

/-- A Document: the ordered list `doc.tables`. -/
abbrev Doc := List Table

/-- A discovered configuration record, as built by
`extract_all_configurations`. -/
structure Config where
  sample_id : String
  config_name : String
  full_name : String
deriving DecidableEq

/-- The anchored regular expression
`CRE2-[0-9][0-9][0-9][0-9]-TP[0-9][0-9][0-9]-[0-9][0-9]` matched against the
whole character list (Python `re.match` with both anchors). -/
def sampleIdChars : List Char → Bool
  | 'C' :: 'R' :: 'E' :: '2' :: '-' :: a :: b :: c :: d :: '-' :: 'T' :: 'P' ::
      e :: f :: g :: '-' :: h :: i :: [] =>
    a.isDigit && b.isDigit && c.isDigit && d.isDigit && e.isDigit && f.isDigit &&
      g.isDigit && h.isDigit && i.isDigit
  | _ => false

/-- Python `re.match(r'^CRE2-\d{4}-TP\d{3}-\d{2}$', s)` as a Boolean. -/
def reMatchSampleId (s : String) : Bool := sampleIdChars s.data

/-- Python `re.search(r'CRE2-\d{4}-TP\d{3}-\d{2}', s)`: the pattern has fixed
length 18, so the search scans positions left to right and returns the first
18-character window that matches. -/
def reSearchSampleId : List Char → Option (List Char)
  | [] => none
  | c :: t =>
    if sampleIdChars ((c :: t).take 18) then some ((c :: t).take 18)
    else reSearchSampleId t

/-- String version of `reSearchSampleId` (`match.group()` of the search). -/
def searchSampleId (s : String) : Option String := (reSearchSampleId s.data).map String.mk

/-- Set insertion in first-insertion order (`set.add`). -/
def insertNew (l : List String) (s : String) : List String :=
  if l.contains s then l else l ++ [s]

/-- One row of the scan of `extract_all_sample_ids`. -/
def sampleIdsRowStep (acc : List String) (row : Row) : List String :=
  if row.length ≥ 2 then
    if strContains (pyLower (pyStrip (row.headD ""))) "name test:" &&
        pyStrip (row.getD 1 "") != "" then
      if reMatchSampleId ((pySplit (pyStrip (row.getD 1 "")) "_").headD "") then
        insertNew acc ((pySplit (pyStrip (row.getD 1 "")) "_").headD "")
      else if strContains ((pySplit (pyStrip (row.getD 1 "")) "_").headD "")
          "CRE2-2025-TP002" then
        match searchSampleId ((pySplit (pyStrip (row.getD 1 "")) "_").headD "") with
        | some m => insertNew acc m
        | none => acc
      else acc
    else acc
  else acc

/-- `parser_mod.extract_all_sample_ids`.  The Python function accumulates a
`set` and returns it as a list in unspecified order; the model keeps
first-insertion order, and only membership is used in theorems. -/
def extract_all_sample_ids (doc : Doc) : List String :=
  doc.foldl (fun acc t => t.foldl sampleIdsRowStep acc) []

/-- One row of the scan of `extract_all_configurations`. -/
def configsRowStep (acc : List Config) (row : Row) : List Config :=
  if row.length ≥ 2 then
    if strContains (pyLower (pyStrip (row.headD ""))) "name test:" &&
        pyStrip (row.getD 1 "") != "" then
      if (pySplit (pyStrip (row.getD 1 "")) "_").length ≥ 2 then
        if reMatchSampleId ((pySplit (pyStrip (row.getD 1 "")) "_").headD "") then
          acc ++ [⟨(pySplit (pyStrip (row.getD 1 "")) "_").headD "",
            pyJoin "_" (pySplit (pyStrip (row.getD 1 "")) "_").tail,
            pyStrip (row.getD 1 "")⟩]
        else acc
      else acc
    else acc
  else acc

/-- `parser_mod.extract_all_configurations`. -/
def extract_all_configurations (doc : Doc) : List Config :=
  doc.foldl (fun acc t => t.foldl configsRowStep acc) []

/-! ## parser_mod.py : measurement extraction -/

/-- Stripped first-row cells of a table (`check_headers`). -/
def rawHeaders (t : Table) : List String := (t.headD []).map pyStrip

/-- Keywords marking a parameters table in the backward scan. -/
def paramKeys : List String :=
  ["Sample:", "Project:", "Operator:", "Test Configuration:", "Operating mode:"]

/-- Keywords marking a measurement table in the backward scan. -/
def measKeys : List String :=
  ["Frequency", "CISPR", "Peak", "Q-Peak", "Lim.Avg", "Lim.Q-Peak", "Lim.Peak"]

/-- `is_params_table` of `extract_measurements_for_configuration`. -/
def isParamsTable (t : Table) : Bool :=
  (rawHeaders t).any (fun h => paramKeys.any (fun k => strContains h k))

/-- `is_measurement_table` of `extract_measurements_for_configuration`. -/
def isMeasTable (t : Table) : Bool :=
  (rawHeaders t).any (fun h => measKeys.any (fun k => strContains h k))

/-- Normalized header row of `extract_measurements_from_table`. -/
def normHeaders (t : Table) : List String :=
  (t.headD []).map (fun c => normalize_header (normalize_unit (pyStrip c)))

/-- Keywords of the measurement-table check inside
`extract_measurements_from_table`. -/
def measHeaderKw : List String := ["frequency", "cispr", "peak", "q-peak", "lim", "margin"]

/-- The column-mapping step of `extract_measurements_from_table`: one
header/value pair updating the row dictionary. -/
def colStep (values : List String) (d : Meas) (ih : Nat × String) : Meas :=
  let h := ih.2
  let val := values.getD ih.1 ""
  let hl := pyLower h
  if strContains hl "frequency" then
    mupsert d "Frequency (MHz)" (clean_decimal val)
  else if hl == "sr" || pyStrip hl == "sr" then
    mupsert d "S R" (clean_decimal val)
  else if strContains hl "cispr" && strContains hl "avg" && !strContains hl "lim" then
    mupsert (mupsert (mupsert d "Mesure (dBµV/m)" (clean_decimal val))
      "Detector type" (Value.str "CISPR.AVG")) "Section" (Value.str "CISPR.AVG")
  else if strContains hl "q-peak" && !strContains hl "lim" then
    mupsert (mupsert (mupsert d "Mesure (dBµV/m)" (clean_decimal val))
      "Detector type" (Value.str "Q-Peak")) "Section" (Value.str "Q-Peak")
  else if strContains hl "peak" && !strContains hl "lim" && !strContains hl "q-peak" &&
      !strContains hl "-" then
    mupsert (mupsert (mupsert d "Mesure (dBµV/m)" (clean_decimal val))
      "Detector type" (Value.str "Peak")) "Section" (Value.str "Peak")
  else if (strContains hl "lim" || strContains hl "limit") &&
      (strContains hl "avg" || strContains hl "peak" || strContains hl "q-peak") then
    mupsert d "Limite (dBµV/m)" (clean_decimal val)
  else if strContains hl "margin" ||
      (strContains hl "-" && (strContains hl "peak" || strContains hl "avg" || strContains hl "q-peak")) then
    mupsert d "Margin (dB)" (clean_decimal val)
  else if strContains hl "pol" then
    mupsert d "Polarization" (Value.str val)
  else if strContains hl "corr" then
    mupsert d "Correction (dB)" (clean_decimal val)
  else
    mupsert d h (Value.str val)

/-- Initial row dictionary of `extract_measurements_from_table`. -/
def initRowDict (sid : String) : Meas :=
  [("Sample ID", Value.str sid), ("Comment", Value.str "-"), ("Section", Value.str "-")]

/-- Build one measurement record from one data row. -/
def extractRow (sid : String) (headers : List String) (values : List String) : Meas :=
  headers.enum.foldl (colStep values) (initRowDict sid)

/-- `parser_mod.extract_measurements_from_table` (top-level version). -/
def extract_measurements_from_table (t : Table) (sid : String) : List Meas :=
  if t.length < 2 then []
  else
    let headers := normHeaders t
    if !(headers.any (fun h => measHeaderKw.any (fun kw => strContains (pyLower h) kw))) then []
    else
      t.tail.foldl (fun acc row =>
        let values := row.map pyStrip
        if values.any (fun v => v != "") then acc ++ [extractRow sid headers values]
        else acc) []

/-- Decimal digit characters of a natural number (fuel-based so that the
kernel evaluates it). -/
def natReprGo : Nat → Nat → List Char
  | 0, _ => []
  | fuel + 1, n =>
    if n < 10 then [Char.ofNat (48 + n)]
    else natReprGo fuel (n / 10) ++ [Char.ofNat (48 + n % 10)]

/-- Decimal representation of a natural number. -/
def natRepr (n : Nat) : String := String.mk (natReprGo (n + 1) n)

/-- Decimal representation of an integer. -/
def intRepr : ℤ → String
  | Int.ofNat n => natRepr n
  | Int.negSucc n => "-" ++ natRepr (n + 1)

/-- Python `str(...)` of a dictionary value, as used to build the
deduplication key.  The exact digits Python prints for a float are
irrelevant to the pipeline: the key is only compared for equality, and this
formatting is injective on the rational models of the floats. -/
def pyRepr : Value → String
  | Value.num q => if q.den == 1 then intRepr q.num else intRepr q.num ++ "/" ++ natRepr q.den
  | Value.str s => s

/-- The composite deduplication key of
`extract_measurements_for_configuration`. -/
def keyOf (m : Meas) : String :=
  pyRepr (mgetD m "Frequency (MHz)" (Value.str "")) ++ "_" ++
    pyRepr (mgetD m "Mesure (dBµV/m)" (Value.str ""))

/-- Accumulate extracted measurements, suppressing any row whose key equals
the key of an already accumulated measurement. -/
def dedupAdd (acc : List Meas) (ms : List Meas) : List Meas :=
  ms.foldl (fun cur m => if (cur.map keyOf).contains (keyOf m) then cur else cur ++ [m]) acc

/-- The backward scan of `extract_measurements_for_configuration`, running
over the tables preceding the target table, nearest first: stop on a
parameters table, extract-and-continue on a measurement table, stop on
anything else. -/
def collectPrev (sid : String) : List Table → List Meas → List Meas
  | [], acc => acc
  | t :: rest, acc =>
    if isParamsTable t then acc
    else if isMeasTable t then
      collectPrev sid rest (dedupAdd acc (extract_measurements_from_table t sid))
    else acc

/-- Concatenated cell text of a table, as used to locate the target
parameters table. -/
def tableText (t : Table) : String := pyJoin " " t.flatten

/-- `parser_mod.extract_measurements_for_configuration`. -/
def extract_measurements_for_configuration (doc : Doc) (sid config_name : String) : List Meas :=
  match doc.findIdx? (fun t =>
      strContains (pyLower (tableText t)) "name test:" && strContains (tableText t) config_name) with
  | none => []
  | some i => collectPrev sid ((doc.take i).reverse) []

/-! ## Concrete documents for the testable scenarios -/

/-- The measurement table of the end-to-end scenario. -/
def tblMeasC2 : Table :=
  [["Frequency (MHz)", "CISPR.AVG", "Lim.Avg", "CISPR.AVG-Lim.Avg"],
   ["30.000", "40,5", "45,0", "4,5"]]

/-- The parameters table of the end-to-end scenario. -/
def tblNameC2 : Table :=
  [["Name Test:", "CRE2-2025-TP002-02_ER_In front of harness RBW 9kHz"]]

/-- End-to-end scenario document: one measurement table followed by the
parameters table declaring the configuration. -/
def doc2 : Doc := [tblMeasC2, tblNameC2]

/-! ## rules.py -/

/-- The lowered-key map `keys = dict((k.lower(), k) for k in m.keys())` of
`process_data`: last value wins, first insertion position is kept (Python
dict semantics). -/
def buildKeysGo (acc : List (String × String)) (k : String) : List (String × String) :=
  let lk := pyLower k
  if acc.any (fun p => p.1 == lk) then
    acc.map (fun p => if p.1 == lk then (p.1, k) else p)
  else acc ++ [(lk, k)]

/-- The lowered-key map of `process_data`, for a list of keys. -/
def buildKeys (ks : List String) : List (String × String) :=
  ks.foldl buildKeysGo []

/-- `next((keys[k] for k in keys if pred(k)), None)`: the original key of
the first lowered key satisfying the predicate. -/
def findCol (m : Meas) (pred : String → Bool) : Option String :=
  (List.find? (fun p => pred p.1) (buildKeys (mkeys m))).map (fun p => p.2)

/-- Lowered-key predicate selecting `col_mesure`. -/
def mesurePred (lk : String) : Bool := strContains lk "cispr" || strContains lk "mesure"

/-- Lowered-key predicate selecting `col_limite`. -/
def limitePred (lk : String) : Bool := strContains lk "limit" || strContains lk "limite"

/-- Python `float(x)` on a dictionary value: a float is itself, a string is
parsed (Python tolerates surrounding whitespace). -/
def pyFloatOfValue : Value → Option ℚ
  | Value.num q => some q
  | Value.str s => pyParseFloat (pyStrip s)

/-- The computed margin of `process_data` when both columns are found and
both values convert to floats: `round(limite - mesure, 2)`; `none` exactly
when the Python code takes one of its fallback branches. -/
def margeSource (m : Meas) : Option ℚ :=
  match findCol m mesurePred, findCol m limitePred with
  | some km, some kl =>
    match pyFloatOfValue (mgetD m km (Value.str "")),
          pyFloatOfValue (mgetD m kl (Value.str "")) with
    | some mes, some lim => some (round2 (qsub lim mes))
    | _, _ => none
  | _, _ => none

/-- `rules.process_data` on a single measurement: compute the margin (or
fall back to the pre-existing `"Margin (dB)"` entry, default `"N/A"`), set
`Overtaking`, and derive the conformity verdict from the margin. -/
def processRow (m : Meas) : Meas :=
  let marge : Value :=
    match margeSource m with
    | some q => Value.num q
    | none => mgetD m "Margin (dB)" (Value.str "N/A")
  let r2 := mupsert (mupsert m "Margin (dB)" marge) "Overtaking (dB)" (Value.str "-")
  let conf : String :=
    match marge with
    | Value.num q => if qnn q then "OK" else "NOK"
    | Value.str _ => "-"
  mupsert r2 "Conformity" (Value.str conf)

/-- `rules.process_data`. -/
def process_data (ms : List Meas) : List Meas := ms.map processRow

/-- `r.get("Detector type", "Unknown")` of `compute_section_and_global`. -/
def detOf (r : Meas) : Value := mgetD r "Detector type" (Value.str "Unknown")

/-- `str(rr.get("Conformity", "")).upper() == "NOK"`.  A float never prints
as `NOK`, so the numeric case is `false`. -/
def pyNOK (r : Meas) : Bool :=
  match mgetD r "Conformity" (Value.str "") with
  | Value.str s => pyUpper s == "NOK"
  | Value.num _ => false

/-- `sections.setdefault(sec, []).append(r)`: append to the group of the
given key, creating it at the end on first occurrence. -/
def insertSec (acc : List (Value × List Meas)) (s : Value) (r : Meas) :
    List (Value × List Meas) :=
  match acc with
  | [] => [(s, [r])]
  | (s0, rs) :: t => if s0 = s then (s0, rs ++ [r]) :: t else (s0, rs) :: insertSec t s r

/-- The grouping loop of `compute_section_and_global` (Python dict
iteration order is insertion order, i.e. first occurrence of each key). -/
def groupSections (rows : List Meas) : List (Value × List Meas) :=
  rows.foldl (fun acc r => insertSec acc (detOf r) r) []

/-- One summary line of `compute_section_and_global` (a fixed-key Python
dict, modelled as a record). -/
structure SectionEntry where
  Section : Value
  NbLines : Nat
  NbFAIL : Nat
  Verdict : String
deriving DecidableEq

/-- Build the summary line of one section. -/
def mkEntry (p : Value × List Meas) : SectionEntry :=
  let fails := (p.2.filter pyNOK).length
  ⟨p.1, p.2.length, fails, if fails == 0 then "OK" else "NOK"⟩

/-- `rules.compute_section_and_global`.  The Python loop accumulates
`all_pass` as the conjunction of the per-section verdicts in order, which
is `summary.all` here. -/
def compute_section_and_global (rows : List Meas) : List SectionEntry × String :=
  let summary := (groupSections rows).map mkEntry
  (summary, if summary.all (fun e => e.Verdict == "OK") then "OK" else "NOK")

/-! ## Concrete inputs for the remaining scenarios -/

/-- Measurement table A of the association-boundary scenario (Frequency 100). -/
def tblA3 : Table :=
  [["Frequency (MHz)", "CISPR.AVG", "Lim.Avg"], ["100.000", "10,0", "20,0"]]

/-- Parameters table P1 declaring configuration `CfgX`. -/
def tblP1c3 : Table := [["Name Test:", "CRE2-2025-TP002-01_CfgX"]]

/-- Measurement table B of the association-boundary scenario (Frequency 30). -/
def tblB3 : Table :=
  [["Frequency (MHz)", "CISPR.AVG", "Lim.Avg"], ["30.000", "40,5", "45,0"]]

/-- Parameters table P2 declaring configuration `CfgY`. -/
def tblP2c3 : Table := [["Name Test:", "CRE2-2025-TP002-02_CfgY"]]

/-- The association-boundary document `[A, P1, B, P2]`. -/
def doc3 : Doc := [tblA3, tblP1c3, tblB3, tblP2c3]

/-- Document whose single name-test value has a prefix that does not match
the SampleID grammar strictly but contains a substring that does. -/
def doc7 : Doc := [[["Name Test:", "XCRE2-2025-TP002-02_CfgZ"]]]

/-- Record whose engine-selected measure and limit columns are the
canonical ones, both numeric (witness input for the margin rule). -/
def cm1 : Meas :=
  [("Mesure (dBµV/m)", Value.num (mkRat 81 2)), ("Limite (dBµV/m)", Value.num 45)]

/-- Record with numeric canonical Measure and Limit values in which the
column search selects a non-numeric `Applied limit` column first. -/
def cbad : Meas :=
  [("Applied limit", Value.str "Class 5"),
   ("Mesure (dBµV/m)", Value.num (mkRat 81 2)),
   ("Limite (dBµV/m)", Value.num 45)]

/-- Record with no measure or limit column but a pre-existing numeric
margin entry. -/
def cpre : Meas :=
  [("Frequency (MHz)", Value.num 30), ("Margin (dB)", Value.num (mkRat 9 2))]

/-- Record whose measure value is a dash, so no numeric margin can be
computed, and which has no pre-existing margin entry. -/
def cna : Meas :=
  [("Mesure (dBµV/m)", Value.str "-"), ("Limite (dBµV/m)", Value.num 45)]

/-- Three processed rows over two detector sections, one NOK, one
undetermined, one OK (witness input for the aggregation rule). -/
def rows6 : List Meas :=
  [[("Detector type", Value.str "Peak"), ("Conformity", Value.str "NOK")],
   [("Detector type", Value.str "Peak"), ("Conformity", Value.str "-")],
   [("Detector type", Value.str "CISPR.AVG"), ("Conformity", Value.str "OK")]]

/-- Placeholder summary line used as a `headD` default. -/
def dfltEntry : SectionEntry := ⟨Value.str "", 0, 0, ""⟩

/-- The end-to-end processed rows of the C2 scenario. -/
def c2rows : List Meas :=
  process_data (extract_measurements_for_configuration doc2 "CRE2-2025-TP002-02"
    "ER_In front of harness RBW 9kHz")

/-- The single processed row of the C2 scenario. -/
def c2row : Meas := c2rows.headD []

/-- The measurements associated with configuration `CfgY` in the
association-boundary scenario. -/
def c3rows : List Meas :=
  extract_measurements_for_configuration doc3 "CRE2-2025-TP002-02" "CfgY"

/-- The rows extracted from the C2 measurement table alone. -/
def c9ms : List Meas := extract_measurements_from_table tblMeasC2 "CRE2-2025-TP002-02"

/-- Lookup of a section group by key (used to reason about the grouping
loop of `compute_section_and_global`). -/
def findSec (g : List (Value × List Meas)) (s : Value) : Option (List Meas) :=
  match g with
  | [] => none
  | (s0, rs) :: t => if s0 = s then some rs else findSec t s

/-! ## Helper lemmas -/

theorem qnn_iff (q : ℚ) : qnn q = true ↔ 0 ≤ q := by
  unfold qnn
  rw [decide_eq_true_iff]
  exact Rat.num_nonneg

theorem qsub_eq (a b : ℚ) : qsub a b = a - b := by
  unfold qsub
  have ha : ((a.den : ℚ)) ≠ 0 := Nat.cast_ne_zero.mpr a.den_nz
  have hb : ((b.den : ℚ)) ≠ 0 := Nat.cast_ne_zero.mpr b.den_nz
  rw [Rat.mkRat_eq_div]
  conv_rhs => rw [← Rat.num_div_den a, ← Rat.num_div_den b]
  rw [div_sub_div _ _ ha hb]
  push_cast
  ring_nf

theorem mlookup_mupsert_self (m : Meas) (k : String) (v : Value) :
    mlookup (mupsert m k v) k = some v := by
  induction m with
  | nil => simp [mupsert, mlookup]
  | cons p t ih =>
    obtain ⟨k0, v0⟩ := p
    by_cases h : k0 = k
    · subst h
      simp [mupsert, mlookup]
    · simp [mupsert, mlookup, h, ih]

theorem mlookup_mupsert_ne (m : Meas) {k k0 : String} (v : Value) (h : k ≠ k0) :
    mlookup (mupsert m k0 v) k = mlookup m k := by
  induction m with
  | nil => simp [mupsert, mlookup, Ne.symm h]
  | cons p t ih =>
    obtain ⟨k1, v1⟩ := p
    by_cases h1 : k1 = k0
    · subst h1
      simp [mupsert, mlookup, Ne.symm h]
    · by_cases h2 : k1 = k
      · subst h2
        simp [mupsert, mlookup, h1]
      · simp [mupsert, mlookup, h1, h2, ih]

/-! ## Claim C1 -/

/-- Claim C1 (amended): for every Measurement record in which the engine's
column search finds a measure column and a limit column and both of their
values are numeric, `process_data` sets `Margin = round(limit - measure, 2)`
and `Conformity = OK` iff the margin is nonnegative, `NOK` iff it is
negative. -/
theorem claim_C1_margin_rule (m : Meas) (km kl : String) (mv lv : ℚ)
    (hm : findCol m mesurePred = some km)
    (hl : findCol m limitePred = some kl)
    (hmv : mgetD m km (Value.str "") = Value.num mv)
    (hlv : mgetD m kl (Value.str "") = Value.num lv) :
    mlookup (processRow m) "Margin (dB)" = some (Value.num (round2 (lv - mv))) ∧
    (mlookup (processRow m) "Conformity" = some (Value.str "OK") ↔ 0 ≤ round2 (lv - mv)) ∧
    (mlookup (processRow m) "Conformity" = some (Value.str "NOK") ↔ round2 (lv - mv) < 0) := by
  have hms : margeSource m = some (round2 (qsub lv mv)) := by
    unfold margeSource
    rw [hm, hl]
    dsimp only
    rw [hmv, hlv]
    rfl
  unfold processRow
  rw [hms, qsub_eq]
  refine ⟨?_, ?_, ?_⟩
  · rw [mlookup_mupsert_ne _ _ (by decide : ("Margin (dB)" : String) ≠ "Conformity"),
      mlookup_mupsert_ne _ _ (by decide : ("Margin (dB)" : String) ≠ "Overtaking (dB)"),
      mlookup_mupsert_self]
  · rw [mlookup_mupsert_self]
    by_cases hq : qnn (round2 (lv - mv))
    · simp only [hq, if_true]
      simpa using (qnn_iff _).mp hq
    · simp only [hq, if_false]
      rw [Bool.not_eq_true] at hq
      constructor
      · intro hcon
        exact absurd hcon (by simp)
      · intro hle
        exact absurd ((qnn_iff _).mpr hle) (by simp [hq])
  · rw [mlookup_mupsert_self]
    by_cases hq : qnn (round2 (lv - mv))
    · simp only [hq, if_true]
      constructor
      · intro hcon
        exact absurd hcon (by simp)
      · intro hlt
        exact absurd ((qnn_iff _).mp hq) (not_le.mpr hlt)
    · simp only [hq, if_false]
      rw [Bool.not_eq_true] at hq
      constructor
      · intro _
        by_contra hge
        rw [not_lt] at hge
        exact absurd ((qnn_iff _).mpr hge) (by simp [hq])
      · intro _
        rfl

/-- Witness for C1: the margin rule applied to a concrete record with
measure 40.5 and limit 45. -/
theorem claim_C1_margin_rule_witness :
    mlookup (processRow cm1) "Margin (dB)" = some (Value.num (round2 ((45 : ℚ) - mkRat 81 2))) ∧
    (mlookup (processRow cm1) "Conformity" = some (Value.str "OK") ↔
      0 ≤ round2 ((45 : ℚ) - mkRat 81 2)) ∧
    (mlookup (processRow cm1) "Conformity" = some (Value.str "NOK") ↔
      round2 ((45 : ℚ) - mkRat 81 2) < 0) :=
  claim_C1_margin_rule cm1 "Mesure (dBµV/m)" "Limite (dBµV/m)" (mkRat 81 2) 45
    (by decide) (by decide) (by decide) (by decide)

/-- Counterexample to C1 as stated: a record whose canonical Measure and
Limit values are both numeric, but whose first key containing `limit` is a
non-numeric `Applied limit` column, so `process_data` emits the `N/A`
margin and the undetermined verdict instead of the rounded difference. -/
theorem claim_C1_counterexample :
    mlookup cbad "Mesure (dBµV/m)" = some (Value.num (mkRat 81 2)) ∧
    mlookup cbad "Limite (dBµV/m)" = some (Value.num 45) ∧
    round2 (qsub 45 (mkRat 81 2)) = mkRat 9 2 ∧
    mlookup (processRow cbad) "Margin (dB)" = some (Value.str "N/A") ∧
    mlookup (processRow cbad) "Margin (dB)" ≠ some (Value.num (mkRat 9 2)) ∧
    mlookup (processRow cbad) "Conformity" = some (Value.str "-") := by decide

/-! ## Claim C5 -/

/-- Claim C5 (amended): when `process_data` cannot compute a numeric margin
(no measure or limit column is found, or a found value does not convert)
and the record has no pre-existing `Margin (dB)` entry, the margin becomes
the sentinel `N/A` and the verdict becomes `-`. -/
theorem claim_C5_na_fallback (m : Meas)
    (h1 : margeSource m = none) (h2 : mlookup m "Margin (dB)" = none) :
    mlookup (processRow m) "Margin (dB)" = some (Value.str "N/A") ∧
    mlookup (processRow m) "Conformity" = some (Value.str "-") := by
  have hd : mgetD m "Margin (dB)" (Value.str "N/A") = Value.str "N/A" := by
    unfold mgetD
    rw [h2]
    rfl
  unfold processRow
  rw [h1, hd]
  constructor
  · rw [mlookup_mupsert_ne _ _ (by decide : ("Margin (dB)" : String) ≠ "Conformity"),
      mlookup_mupsert_ne _ _ (by decide : ("Margin (dB)" : String) ≠ "Overtaking (dB)"),
      mlookup_mupsert_self]
  · rw [mlookup_mupsert_self]

/-- Witness for C5: a record whose measure cell is a dash and which carries
no pre-existing margin. -/
theorem claim_C5_na_fallback_witness :
    mlookup (processRow cna) "Margin (dB)" = some (Value.str "N/A") ∧
    mlookup (processRow cna) "Conformity" = some (Value.str "-") :=
  claim_C5_na_fallback cna (by decide) (by decide)

/-- Counterexample to C5 as stated: a record with no numeric Measure or
Limit but a pre-existing numeric `Margin (dB)` entry keeps that margin and
receives verdict `OK`, not the sentinel and `-`. -/
theorem claim_C5_counterexample :
    findCol cpre mesurePred = none ∧
    findCol cpre limitePred = none ∧
    mlookup (processRow cpre) "Margin (dB)" = some (Value.num (mkRat 9 2)) ∧
    mlookup (processRow cpre) "Conformity" = some (Value.str "OK") ∧
    mlookup (processRow cpre) "Conformity" ≠ some (Value.str "-") := by decide

/-! ## Claim C2 -/

/-- Claim C2: the end-to-end scenario.  The document consisting of the
measurement block followed by the name-test parameter block yields exactly
one discovered configuration (SampleID `CRE2-2025-TP002-02`, configuration
`ER_In front of harness RBW 9kHz`) and exactly one processed Measurement
with Frequency 30, detector `CISPR.AVG`, Measure 40.5, Limit 45,
Margin 4.5 and Conformity `OK`. -/
theorem claim_C2_end_to_end :
    extract_all_configurations doc2 =
      [⟨"CRE2-2025-TP002-02", "ER_In front of harness RBW 9kHz",
        "CRE2-2025-TP002-02_ER_In front of harness RBW 9kHz"⟩] ∧
    c2rows.length = 1 ∧
    mlookup c2row "Sample ID" = some (Value.str "CRE2-2025-TP002-02") ∧
    mlookup c2row "Frequency (MHz)" = some (Value.num 30) ∧
    mlookup c2row "Detector type" = some (Value.str "CISPR.AVG") ∧
    mlookup c2row "Mesure (dBµV/m)" = some (Value.num (mkRat 81 2)) ∧
    mlookup c2row "Limite (dBµV/m)" = some (Value.num 45) ∧
    mlookup c2row "Margin (dB)" = some (Value.num (mkRat 9 2)) ∧
    mlookup c2row "Conformity" = some (Value.str "OK") := by decide

/-! ## Claim C3 -/

/-- Claim C3: the backward scan of the Association Resolver collects
measurements exactly from the contiguous run of measurement tables that
immediately precede the declaring table, stopping at the first
test-identity parameters table and at the first table that is neither; in
the synthetic document `[A, P1, B, P2]` configuration `CfgY` receives only
the row of table B (Frequency 30), never the row of table A
(Frequency 100). -/
theorem claim_C3_association_boundary :
    (∀ (sid : String) (ts : List Table) (acc : List Meas),
        collectPrev sid ts acc =
          (ts.takeWhile (fun t => !isParamsTable t && isMeasTable t)).foldl
            (fun a t => dedupAdd a (extract_measurements_from_table t sid)) acc) ∧
    (c3rows.length = 1 ∧
     mlookup (c3rows.headD []) "Frequency (MHz)" = some (Value.num 30) ∧
     mlookup ((extract_measurements_from_table tblA3 "CRE2-2025-TP002-02").headD [])
       "Frequency (MHz)" = some (Value.num 100)) := by
  constructor
  · intro sid ts
    induction ts with
    | nil => intro acc; rfl
    | cons t rest ih =>
      intro acc
      by_cases hp : isParamsTable t
      · simp [collectPrev, hp, List.takeWhile_cons]
      · by_cases hm : isMeasTable t
        · simp [collectPrev, hp, hm, List.takeWhile_cons, ih]
        · simp [collectPrev, hp, hm, List.takeWhile_cons]
  · exact ⟨by decide, by decide, by decide⟩

/-! ## Claim C8 -/

theorem dedupAdd_cons (acc : List Meas) (m : Meas) (rest : List Meas) :
    dedupAdd acc (m :: rest) =
      dedupAdd (if (acc.map keyOf).contains (keyOf m) then acc else acc ++ [m]) rest := rfl

theorem keyOf_mem_dedupAdd_mono (ms : List Meas) (acc : List Meas) (k : String)
    (h : k ∈ acc.map keyOf) : k ∈ (dedupAdd acc ms).map keyOf := by
  induction ms generalizing acc with
  | nil => exact h
  | cons m rest ih =>
    rw [dedupAdd_cons]
    by_cases hc : (acc.map keyOf).contains (keyOf m)
    · rw [if_pos hc]
      exact ih acc h
    · rw [if_neg hc]
      refine ih (acc ++ [m]) ?_
      rw [List.map_append]
      exact List.mem_append_left _ h

theorem keyOf_mem_dedupAdd_self (ms : List Meas) (acc : List Meas) (m : Meas)
    (h : m ∈ ms) : keyOf m ∈ (dedupAdd acc ms).map keyOf := by
  induction ms generalizing acc with
  | nil => cases h
  | cons m0 rest ih =>
    rw [dedupAdd_cons]
    rcases List.mem_cons.mp h with h0 | h0
    · subst h0
      by_cases hc : (acc.map keyOf).contains (keyOf m)
      · rw [if_pos hc]
        refine keyOf_mem_dedupAdd_mono rest acc _ ?_
        simpa using hc
      · rw [if_neg hc]
        refine keyOf_mem_dedupAdd_mono rest (acc ++ [m]) _ ?_
        simp
    · by_cases hc : (acc.map keyOf).contains (keyOf m0)
      · rw [if_pos hc]
        exact ih acc h0
      · rw [if_neg hc]
        exact ih (acc ++ [m0]) h0

theorem dedupAdd_noop (ms : List Meas) (acc : List Meas) :
    (∀ m ∈ ms, keyOf m ∈ acc.map keyOf) → dedupAdd acc ms = acc := by
  induction ms with
  | nil => intro _; rfl
  | cons m0 rest ih =>
    intro h
    have hc : (acc.map keyOf).contains (keyOf m0) = true := by
      simpa using h m0 (List.mem_cons_self m0 rest)
    rw [dedupAdd_cons, if_pos hc]
    exact ih (fun m hm => h m (List.mem_cons_of_mem _ hm))

/-- Claim C8: accumulating the rows of one MeasurementBlock a second time
for the same configuration changes nothing — every row of the second pass
has a composite key already present, so it is suppressed, and the
measurement count (indeed the whole list) is that of a single pass. -/
theorem claim_C8_dedup_idempotent (acc : List Meas) (t : Table) (sid : String) :
    dedupAdd (dedupAdd acc (extract_measurements_from_table t sid))
        (extract_measurements_from_table t sid) =
      dedupAdd acc (extract_measurements_from_table t sid) :=
  dedupAdd_noop _ _ (fun _ hm => keyOf_mem_dedupAdd_self _ _ _ hm)

/-! ## Claim C7 -/

theorem searchSampleId_valid (l r : List Char) (h : reSearchSampleId l = some r) :
    sampleIdChars r = true := by
  induction l with
  | nil => cases h
  | cons c t ih =>
    unfold reSearchSampleId at h
    by_cases hc : sampleIdChars ((c :: t).take 18)
    · rw [if_pos hc] at h
      cases h
      exact hc
    · rw [if_neg hc] at h
      exact ih h

theorem searchSampleId_ok (s m : String) (h : searchSampleId s = some m) :
    reMatchSampleId m = true := by
  unfold searchSampleId at h
  cases hr : reSearchSampleId s.data with
  | none => rw [hr] at h; cases h
  | some r =>
    rw [hr] at h
    simp only [Option.map_some'] at h
    injection h with h2
    rw [← h2]
    exact searchSampleId_valid _ _ hr

theorem foldlPreserve {α β : Type} (P : α → Prop) (f : α → β → α) (l : List β) (init : α)
    (h0 : P init) (hstep : ∀ a b, P a → P (f a b)) : P (List.foldl f init l) := by
  induction l generalizing init with
  | nil => exact h0
  | cons b rest ih => exact ih _ (hstep _ _ h0)

theorem insertNew_ok (acc : List String) (s : String)
    (hacc : ∀ x ∈ acc, reMatchSampleId x = true) (hs : reMatchSampleId s = true) :
    ∀ x ∈ insertNew acc s, reMatchSampleId x = true := by
  intro x hx
  unfold insertNew at hx
  by_cases hc : acc.contains s
  · rw [if_pos hc] at hx
    exact hacc x hx
  · rw [if_neg hc] at hx
    rcases List.mem_append.mp hx with h | h
    · exact hacc x h
    · rw [List.mem_singleton.mp h]
      exact hs

theorem sampleIdsRowStep_ok (acc : List String) (row : Row)
    (hacc : ∀ x ∈ acc, reMatchSampleId x = true) :
    ∀ x ∈ sampleIdsRowStep acc row, reMatchSampleId x = true := by
  unfold sampleIdsRowStep
  by_cases c1 : row.length ≥ 2
  · rw [if_pos c1]
    by_cases c2 : (strContains (pyLower (pyStrip (row.headD ""))) "name test:" &&
        pyStrip (row.getD 1 "") != "") = true
    · rw [if_pos c2]
      by_cases c3 : reMatchSampleId ((pySplit (pyStrip (row.getD 1 "")) "_").headD "") = true
      · rw [if_pos c3]
        exact insertNew_ok _ _ hacc c3
      · rw [if_neg c3]
        by_cases c4 : strContains ((pySplit (pyStrip (row.getD 1 "")) "_").headD "")
            "CRE2-2025-TP002" = true
        · rw [if_pos c4]
          cases hs : searchSampleId ((pySplit (pyStrip (row.getD 1 "")) "_").headD "") with
          | none => exact hacc
          | some m => exact insertNew_ok _ _ hacc (searchSampleId_ok _ _ hs)
        · rw [if_neg c4]
          exact hacc
    · rw [if_neg c2]
      exact hacc
  · rw [if_neg c1]
    exact hacc

theorem configsRowStep_ok (acc : List Config) (row : Row)
    (hacc : ∀ c ∈ acc, reMatchSampleId c.sample_id = true) :
    ∀ c ∈ configsRowStep acc row, reMatchSampleId c.sample_id = true := by
  unfold configsRowStep
  by_cases c1 : row.length ≥ 2
  · rw [if_pos c1]
    by_cases c2 : (strContains (pyLower (pyStrip (row.headD ""))) "name test:" &&
        pyStrip (row.getD 1 "") != "") = true
    · rw [if_pos c2]
      by_cases c3 : (pySplit (pyStrip (row.getD 1 "")) "_").length ≥ 2
      · rw [if_pos c3]
        by_cases c4 : reMatchSampleId ((pySplit (pyStrip (row.getD 1 "")) "_").headD "") = true
        · rw [if_pos c4]
          intro c hc
          rcases List.mem_append.mp hc with h | h
          · exact hacc c h
          · rw [List.mem_singleton.mp h]
            exact c4
        · rw [if_neg c4]
          exact hacc
      · rw [if_neg c3]
        exact hacc
    · rw [if_neg c2]
      exact hacc
  · rw [if_neg c1]
    exact hacc

/-- Claim C7 (amended): the Configuration Discoverer
(`extract_all_configurations`) accepts a name-test row only when the
portion before the first underscore matches the SampleID grammar strictly —
there is no relaxed extraction for configurations, so every discovered
configuration carries a strictly matching SampleID.  The relaxed pattern
search exists only in `extract_all_sample_ids` (gated on the literal
`CRE2-2025-TP002`), and every sample id it returns also matches strictly. -/
theorem claim_C7_strict_discovery :
    (∀ (doc : Doc) (c : Config), c ∈ extract_all_configurations doc →
        reMatchSampleId c.sample_id = true) ∧
    (∀ (doc : Doc) (s : String), s ∈ extract_all_sample_ids doc →
        reMatchSampleId s = true) := by
  constructor
  · intro doc c hc
    revert c
    unfold extract_all_configurations
    refine foldlPreserve (fun l : List Config => ∀ c ∈ l, reMatchSampleId c.sample_id = true) _ _ _
      (fun c hc => absurd hc (List.not_mem_nil c)) ?_
    intro a t ha
    exact foldlPreserve (fun l : List Config => ∀ c ∈ l, reMatchSampleId c.sample_id = true) _ _ _ ha
      (fun a2 row ha2 => configsRowStep_ok a2 row ha2)
  · intro doc s hs
    revert s
    unfold extract_all_sample_ids
    refine foldlPreserve (fun l : List String => ∀ s ∈ l, reMatchSampleId s = true) _ _ _
      (fun s hs => absurd hs (List.not_mem_nil s)) ?_
    intro a t ha
    exact foldlPreserve (fun l : List String => ∀ s ∈ l, reMatchSampleId s = true) _ _ _ ha
      (fun a2 row ha2 => sampleIdsRowStep_ok a2 row ha2)

/-- Witness for C7: the configuration discovered in the end-to-end document
has a strictly matching SampleID. -/
theorem claim_C7_strict_discovery_witness :
    reMatchSampleId "CRE2-2025-TP002-02" = true :=
  claim_C7_strict_discovery.1 doc2
    ⟨"CRE2-2025-TP002-02", "ER_In front of harness RBW 9kHz",
      "CRE2-2025-TP002-02_ER_In front of harness RBW 9kHz"⟩ (by decide)

/-- Counterexample to C7 as stated: a name-test value whose prefix is a
relaxed superstring of the grammar (it contains the matching substring
`CRE2-2025-TP002-02`) is rejected outright by the Configuration Discoverer
instead of being accepted through pattern search. -/
theorem claim_C7_counterexample :
    reMatchSampleId "XCRE2-2025-TP002-02" = false ∧
    searchSampleId "XCRE2-2025-TP002-02" = some "CRE2-2025-TP002-02" ∧
    extract_all_configurations doc7 = [] := by decide

/-! ## Claims C4 and C10 -/

theorem applyRules_mem (rules : List (String × String)) (c std : String)
    (h : applyRules rules c = some std) : ∃ p ∈ rules, p.2 = std := by
  induction rules with
  | nil => cases h
  | cons p rest ih =>
    obtain ⟨pat, s0⟩ := p
    unfold applyRules at h
    by_cases hc : strContains c pat = true
    · rw [if_pos hc] at h
      injection h with h2
      exact ⟨(pat, s0), List.mem_cons_self _ _, h2⟩
    · rw [if_neg hc] at h
      obtain ⟨q, hq, he⟩ := ih h
      exact ⟨q, List.mem_cons_of_mem _ hq, he⟩

/-- Claim C10: `normalize_header` is total and idempotent — applying it
twice gives the same result as applying it once, and a header matching no
rule passes through unchanged. -/
theorem claim_C10_idempotent_total :
    (∀ h : String, normalize_header (normalize_header h) = normalize_header h) ∧
    (∀ h : String, applyRules priority_mappings (pyLower (pyStrip h)) = none →
        normalize_header h = h) := by
  have hfix : ∀ std : String, (∃ p ∈ priority_mappings, p.2 = std) →
      normalize_header std = std := by
    intro std hp
    obtain ⟨p, hmem, he⟩ := hp
    unfold priority_mappings at hmem
    fin_cases hmem <;> (rw [← he]; decide)
  constructor
  · intro h
    cases ha : applyRules priority_mappings (pyLower (pyStrip h)) with
    | none =>
      have h1 : normalize_header h = h := by
        unfold normalize_header
        rw [ha]
      rw [h1]
      exact h1
    | some std =>
      have h1 : normalize_header h = std := by
        unfold normalize_header
        rw [ha]
      rw [h1]
      exact hfix std (applyRules_mem _ _ _ ha)
  · intro h ha
    unfold normalize_header
    rw [ha]

/-- Witness for C10: idempotence at a matched header and pass-through of an
unmatched header. -/
theorem claim_C10_idempotent_total_witness :
    normalize_header (normalize_header "Polarization (H/V)") =
      normalize_header "Polarization (H/V)" ∧
    normalize_header "zzz" = "zzz" :=
  ⟨claim_C10_idempotent_total.1 "Polarization (H/V)",
   claim_C10_idempotent_total.2 "zzz" (by decide)⟩

/-- Claim C4: after the substitution pass, the header
`CISPR.AVG-Lim.Avg (dB)` normalizes to the margin label; any header whose
cleaned text contains one of the composite margin patterns normalizes to
the margin label (margin rules precede the limit and measurement rules they
contain); and a header containing `q-peak` is never classified as the
plain Peak measurement label. -/
theorem claim_C4_header_priority :
    normalize_header (normalize_unit "CISPR.AVG-Lim.Avg (dB)") = "Margin (dB)" ∧
    (∀ h : String,
        (strContains (pyLower (pyStrip h)) "cispr avg-limit avg" = true ∨
         strContains (pyLower (pyStrip h)) "peak-limit peak" = true ∨
         strContains (pyLower (pyStrip h)) "q-peak-limit q-peak" = true) →
        normalize_header h = "Margin (dB)") ∧
    (∀ h : String, strContains (pyLower (pyStrip h)) "q-peak" = true →
        normalize_header h ≠ "Peak (dBµV/m)") := by
  refine ⟨by decide, ?_, ?_⟩
  · intro h hd
    unfold normalize_header
    simp only [priority_mappings, applyRules]
    rcases hd with h1 | h2 | h3
    · rw [if_pos h1]
    · by_cases c1 : strContains (pyLower (pyStrip h)) "cispr avg-limit avg" = true
      · rw [if_pos c1]
      · rw [if_neg c1, if_pos h2]
    · by_cases c1 : strContains (pyLower (pyStrip h)) "cispr avg-limit avg" = true
      · rw [if_pos c1]
      · by_cases c2 : strContains (pyLower (pyStrip h)) "peak-limit peak" = true
        · rw [if_neg c1, if_pos c2]
        · rw [if_neg c1, if_neg c2, if_pos h3]
  · intro h hq
    unfold normalize_header
    simp only [priority_mappings, applyRules]
    have hmar : ("Margin (dB)" : String) ≠ "Peak (dBµV/m)" := by decide
    by_cases c1 : strContains (pyLower (pyStrip h)) "cispr avg-limit avg" = true
    · rw [if_pos c1]; exact hmar
    rw [if_neg c1]
    by_cases c2 : strContains (pyLower (pyStrip h)) "peak-limit peak" = true
    · rw [if_pos c2]; exact hmar
    rw [if_neg c2]
    by_cases c3 : strContains (pyLower (pyStrip h)) "q-peak-limit q-peak" = true
    · rw [if_pos c3]; exact hmar
    rw [if_neg c3]
    by_cases c4 : strContains (pyLower (pyStrip h)) "peak-limit" = true
    · rw [if_pos c4]; exact hmar
    rw [if_neg c4]
    by_cases c5 : strContains (pyLower (pyStrip h)) "cispr-limit" = true
    · rw [if_pos c5]; exact hmar
    rw [if_neg c5]
    by_cases c6 : strContains (pyLower (pyStrip h)) "q-peak-limit" = true
    · rw [if_pos c6]; exact hmar
    rw [if_neg c6]
    by_cases c7 : strContains (pyLower (pyStrip h)) "limit peak" = true
    · rw [if_pos c7]
      exact (by decide : ("Limit Peak (dBµV/m)" : String) ≠ "Peak (dBµV/m)")
    rw [if_neg c7]
    by_cases c8 : strContains (pyLower (pyStrip h)) "limit avg" = true
    · rw [if_pos c8]
      exact (by decide : ("Limit Avg (dBµV/m)" : String) ≠ "Peak (dBµV/m)")
    rw [if_neg c8]
    by_cases c9 : strContains (pyLower (pyStrip h)) "limit q-peak" = true
    · rw [if_pos c9]
      exact (by decide : ("Limit Q-Peak (dBµV/m)" : String) ≠ "Peak (dBµV/m)")
    rw [if_neg c9]
    by_cases c10 : strContains (pyLower (pyStrip h)) "cispr avg" = true
    · rw [if_pos c10]
      exact (by decide : ("CISPR.AVG (dBµV/m)" : String) ≠ "Peak (dBµV/m)")
    rw [if_neg c10]
    rw [if_pos hq]
    exact (by decide : ("Q-Peak (dBµV/m)" : String) ≠ "Peak (dBµV/m)")

/-- Witness for C4: a Q-Peak header is not classified as Peak, and a
composite margin header is classified as margin. -/
theorem claim_C4_header_priority_witness :
    normalize_header "Q-Peak (dBµV/m)" ≠ "Peak (dBµV/m)" ∧
    normalize_header "cispr avg-limit avg" = "Margin (dB)" :=
  ⟨claim_C4_header_priority.2.2 "Q-Peak (dBµV/m)" (by decide),
   claim_C4_header_priority.2.1 "cispr avg-limit avg" (Or.inl (by decide))⟩

/-! ## Claim C9 -/

theorem foldlPreserveMem {α β : Type} (P : α → Prop) (f : α → β → α) :
    ∀ (l : List β) (init : α), P init → (∀ a b, b ∈ l → P a → P (f a b)) →
      P (List.foldl f init l)
  | [], _, h0, _ => h0
  | b :: rest, init, h0, hstep =>
    foldlPreserveMem P f rest (f init b) (hstep init b (List.mem_cons_self _ _) h0)
      (fun a b2 hb2 ha => hstep a b2 (List.mem_cons_of_mem _ hb2) ha)

theorem snd_mem_of_mem_enumFrom {α : Type} :
    ∀ (l : List α) (n : Nat) (p : Nat × α), p ∈ l.enumFrom n → p.2 ∈ l
  | [], _, p, h => absurd h (List.not_mem_nil p)
  | a :: t, n, p, h => by
    rcases List.mem_cons.mp h with h0 | h0
    · rw [h0]
      exact List.mem_cons_self _ _
    · exact List.mem_cons_of_mem _ (snd_mem_of_mem_enumFrom t (n + 1) p h0)

theorem mem_foldl_append_filter {β : Type} (g : β → Meas) (p : β → Bool) :
    ∀ (l : List β) (acc : List Meas) (m : Meas),
      m ∈ List.foldl (fun a b => if p b then a ++ [g b] else a) acc l →
      m ∈ acc ∨ ∃ b ∈ l, m = g b
  | [], _, _, hm => Or.inl hm
  | b :: rest, acc, m, hm => by
    have hrec := mem_foldl_append_filter g p rest (if p b then acc ++ [g b] else acc) m hm
    rcases hrec with hin | ⟨b2, hb2, he⟩
    · by_cases hp : p b = true
      · rw [if_pos hp] at hin
        rcases List.mem_append.mp hin with h | h
        · exact Or.inl h
        · exact Or.inr ⟨b, List.mem_cons_self _ _, List.mem_singleton.mp h⟩
      · rw [if_neg hp] at hin
        exact Or.inl hin
    · exact Or.inr ⟨b2, List.mem_cons_of_mem _ hb2, he⟩

theorem mem_extract_table (t : Table) (sid : String) (m : Meas)
    (hm : m ∈ extract_measurements_from_table t sid) :
    ∃ values : List String, m = extractRow sid (normHeaders t) values := by
  simp only [extract_measurements_from_table] at hm
  by_cases h1 : t.length < 2
  · rw [if_pos h1] at hm
    cases hm
  · rw [if_neg h1] at hm
    by_cases h2 : (!((normHeaders t).any
        (fun h => measHeaderKw.any (fun kw => strContains (pyLower h) kw)))) = true
    · rw [if_pos h2] at hm
      cases hm
    · rw [if_neg h2] at hm
      rcases mem_foldl_append_filter
          (fun row : Row => extractRow sid (normHeaders t) (row.map pyStrip))
          (fun row : Row => (row.map pyStrip).any (fun v => v != ""))
          t.tail [] m hm with h | ⟨row, _, he⟩
      · cases h
      · exact ⟨row.map pyStrip, he⟩

theorem keepCP (d : Meas) (k : String) (v : Value)
    (h1 : k ≠ "Comment") (h2 : k ≠ "Polarization")
    (hd : mlookup d "Comment" = some (Value.str "-") ∧ mlookup d "Polarization" = none) :
    mlookup (mupsert d k v) "Comment" = some (Value.str "-") ∧
    mlookup (mupsert d k v) "Polarization" = none := by
  constructor
  · rw [mlookup_mupsert_ne _ _ (Ne.symm h1)]
    exact hd.1
  · rw [mlookup_mupsert_ne _ _ (Ne.symm h2)]
    exact hd.2

theorem colStep_keeps (values : List String) (headers : List String) (d : Meas)
    (ih : Nat × String) (hmem : ih ∈ headers.enum)
    (hpol : ∀ h ∈ headers, strContains (pyLower h) "pol" = false)
    (hcom : "Comment" ∉ headers)
    (hd : mlookup d "Comment" = some (Value.str "-") ∧ mlookup d "Polarization" = none) :
    mlookup (colStep values d ih) "Comment" = some (Value.str "-") ∧
    mlookup (colStep values d ih) "Polarization" = none := by
  obtain ⟨i, h⟩ := ih
  have hh : h ∈ headers := snd_mem_of_mem_enumFrom headers 0 (i, h) hmem
  simp only [colStep]
  by_cases b1 : strContains (pyLower h) "frequency" = true
  · rw [if_pos b1]
    exact keepCP _ _ _ (by decide) (by decide) hd
  rw [if_neg b1]
  by_cases b2 : (pyLower h == "sr" || pyStrip (pyLower h) == "sr") = true
  · rw [if_pos b2]
    exact keepCP _ _ _ (by decide) (by decide) hd
  rw [if_neg b2]
  by_cases b3 : (strContains (pyLower h) "cispr" && strContains (pyLower h) "avg" &&
      !strContains (pyLower h) "lim") = true
  · rw [if_pos b3]
    exact keepCP _ _ _ (by decide) (by decide)
      (keepCP _ _ _ (by decide) (by decide) (keepCP _ _ _ (by decide) (by decide) hd))
  rw [if_neg b3]
  by_cases b4 : (strContains (pyLower h) "q-peak" && !strContains (pyLower h) "lim") = true
  · rw [if_pos b4]
    exact keepCP _ _ _ (by decide) (by decide)
      (keepCP _ _ _ (by decide) (by decide) (keepCP _ _ _ (by decide) (by decide) hd))
  rw [if_neg b4]
  by_cases b5 : (strContains (pyLower h) "peak" && !strContains (pyLower h) "lim" &&
      !strContains (pyLower h) "q-peak" && !strContains (pyLower h) "-") = true
  · rw [if_pos b5]
    exact keepCP _ _ _ (by decide) (by decide)
      (keepCP _ _ _ (by decide) (by decide) (keepCP _ _ _ (by decide) (by decide) hd))
  rw [if_neg b5]
  by_cases b6 : ((strContains (pyLower h) "lim" || strContains (pyLower h) "limit") &&
      (strContains (pyLower h) "avg" || strContains (pyLower h) "peak" ||
        strContains (pyLower h) "q-peak")) = true
  · rw [if_pos b6]
    exact keepCP _ _ _ (by decide) (by decide) hd
  rw [if_neg b6]
  by_cases b7 : (strContains (pyLower h) "margin" ||
      (strContains (pyLower h) "-" && (strContains (pyLower h) "peak" ||
        strContains (pyLower h) "avg" || strContains (pyLower h) "q-peak"))) = true
  · rw [if_pos b7]
    exact keepCP _ _ _ (by decide) (by decide) hd
  rw [if_neg b7]
  by_cases b8 : strContains (pyLower h) "pol" = true
  · exact absurd b8 (by rw [hpol h hh]; decide)
  rw [if_neg b8]
  by_cases b9 : strContains (pyLower h) "corr" = true
  · rw [if_pos b9]
    exact keepCP _ _ _ (by decide) (by decide) hd
  rw [if_neg b9]
  refine keepCP _ _ _ ?_ ?_ hd
  · intro he
    exact hcom (he ▸ hh)
  · intro he
    have hp := hpol h hh
    rw [he] at hp
    exact absurd hp (by decide)

theorem extractRow_comment_pol (sid : String) (headers : List String) (values : List String)
    (hpol : ∀ h ∈ headers, strContains (pyLower h) "pol" = false)
    (hcom : "Comment" ∉ headers) :
    mlookup (extractRow sid headers values) "Comment" = some (Value.str "-") ∧
    mlookup (extractRow sid headers values) "Polarization" = none := by
  unfold extractRow
  exact foldlPreserveMem
    (fun d => mlookup d "Comment" = some (Value.str "-") ∧ mlookup d "Polarization" = none)
    (colStep values) headers.enum (initRowDict sid) (by constructor <;> rfl)
    (fun d ih hih hd => colStep_keeps values headers d ih hih hpol hcom hd)

/-- Claim C9 (amended): every Measurement built by the Row Extractor from a
non-blank data row of a table with no Polarization column and no Comment
column carries Comment = `-` by default, but carries no Polarization key at
all — the `Vertical` default of the specification is applied only by the
export layer, not by `extract_measurements_from_table`. -/
theorem claim_C9_defaults (t : Table) (sid : String)
    (hpol : ∀ h ∈ normHeaders t, strContains (pyLower h) "pol" = false)
    (hcom : "Comment" ∉ normHeaders t) :
    ∀ m ∈ extract_measurements_from_table t sid,
      mlookup m "Comment" = some (Value.str "-") ∧
      mlookup m "Polarization" = none := by
  intro m hm
  obtain ⟨values, he⟩ := mem_extract_table t sid m hm
  rw [he]
  exact extractRow_comment_pol sid (normHeaders t) values hpol hcom

/-- Witness for C9: the defaults of the single row extracted from the
end-to-end measurement table. -/
theorem claim_C9_defaults_witness :
    mlookup (c9ms.headD []) "Comment" = some (Value.str "-") ∧
    mlookup (c9ms.headD []) "Polarization" = none :=
  claim_C9_defaults tblMeasC2 "CRE2-2025-TP002-02" (by decide) (by decide)
    (c9ms.headD []) (by decide)

/-- Counterexample to C9 as stated: the row extracted from a table with no
Polarization column carries no Polarization entry at all, in particular not
the claimed default `Vertical` (while the Comment default `-` is present). -/
theorem claim_C9_counterexample :
    c9ms.length = 1 ∧
    mlookup (c9ms.headD []) "Comment" = some (Value.str "-") ∧
    mlookup (c9ms.headD []) "Polarization" = none ∧
    mlookup (c9ms.headD []) "Polarization" ≠ some (Value.str "Vertical") := by decide

/-! ## Claim C6 -/

theorem findSec_insertSec_same (g : List (Value × List Meas)) (s : Value) (r : Meas) :
    findSec (insertSec g s r) s = some ((findSec g s).getD [] ++ [r]) := by
  induction g with
  | nil => simp [insertSec, findSec]
  | cons p t ih =>
    obtain ⟨s0, rs⟩ := p
    by_cases h : s0 = s
    · subst h
      simp [insertSec, findSec]
    · simp [insertSec, findSec, h, ih]

theorem findSec_insertSec_ne (g : List (Value × List Meas)) {s s2 : Value} (r : Meas)
    (h : s2 ≠ s) : findSec (insertSec g s r) s2 = findSec g s2 := by
  induction g with
  | nil => simp [insertSec, findSec, Ne.symm h]
  | cons p t ih =>
    obtain ⟨s0, rs⟩ := p
    by_cases h0 : s0 = s
    · subst h0
      simp [insertSec, findSec, Ne.symm h]
    · by_cases h2 : s0 = s2
      · subst h2
        simp [insertSec, findSec, h0]
      · simp [insertSec, findSec, h0, h2, ih]

theorem keys_insertSec (g : List (Value × List Meas)) (s : Value) (r : Meas) :
    (insertSec g s r).map Prod.fst =
      if s ∈ g.map Prod.fst then g.map Prod.fst else g.map Prod.fst ++ [s] := by
  induction g with
  | nil => simp [insertSec]
  | cons p t ih =>
    obtain ⟨s0, rs⟩ := p
    by_cases h : s0 = s
    · subst h
      simp [insertSec]
    · by_cases hm : s ∈ t.map Prod.fst
      · simp [insertSec, h, Ne.symm h, hm, ih]
      · simp [insertSec, h, Ne.symm h, hm, ih]

theorem mem_keys_insertSec (g : List (Value × List Meas)) (s : Value) (r : Meas)
    (s2 : Value) :
    s2 ∈ (insertSec g s r).map Prod.fst ↔ s2 ∈ g.map Prod.fst ∨ s2 = s := by
  rw [keys_insertSec]
  by_cases hm : s ∈ g.map Prod.fst
  · rw [if_pos hm]
    constructor
    · intro h
      exact Or.inl h
    · rintro (h | h)
      · exact h
      · exact h ▸ hm
  · rw [if_neg hm]
    simp [List.mem_append]

theorem nodup_keys_insertSec (g : List (Value × List Meas)) (s : Value) (r : Meas)
    (h : (g.map Prod.fst).Nodup) : ((insertSec g s r).map Prod.fst).Nodup := by
  rw [keys_insertSec]
  by_cases hm : s ∈ g.map Prod.fst
  · rw [if_pos hm]
    exact h
  · rw [if_neg hm]
    simp [List.nodup_append, h, hm]

theorem findSec_fold_some (rows : List Meas) :
    ∀ (g : List (Value × List Meas)) (s : Value) (rs : List Meas),
      findSec g s = some rs →
      findSec (rows.foldl (fun acc r => insertSec acc (detOf r) r) g) s =
        some (rs ++ rows.filter (fun r => detOf r == s)) := by
  induction rows with
  | nil =>
    intro g s rs h
    simpa using h
  | cons r rest ih =>
    intro g s rs h
    simp only [List.foldl_cons]
    by_cases hds : detOf r = s
    · have h1 : findSec (insertSec g (detOf r) r) s = some (rs ++ [r]) := by
        rw [hds, findSec_insertSec_same, h]
        rfl
      rw [ih _ _ _ h1]
      simp [List.filter_cons, hds, List.append_assoc]
    · have h1 : findSec (insertSec g (detOf r) r) s = some rs := by
        rw [findSec_insertSec_ne _ _ (Ne.symm hds), h]
      rw [ih _ _ _ h1]
      have hpr : (detOf r == s) = false := by
        simp [hds]
      simp [List.filter_cons, hpr]

theorem findSec_fold_none (rows : List Meas) :
    ∀ (g : List (Value × List Meas)) (s : Value),
      findSec g s = none →
      findSec (rows.foldl (fun acc r => insertSec acc (detOf r) r) g) s =
        if rows.any (fun r => detOf r == s) then
          some (rows.filter (fun r => detOf r == s))
        else none := by
  induction rows with
  | nil =>
    intro g s h
    simpa using h
  | cons r rest ih =>
    intro g s h
    simp only [List.foldl_cons]
    by_cases hds : detOf r = s
    · have h1 : findSec (insertSec g (detOf r) r) s = some [r] := by
        rw [hds, findSec_insertSec_same, h]
        rfl
      rw [findSec_fold_some rest _ _ _ h1]
      have hany : (r :: rest).any (fun r => detOf r == s) = true := by
        simp [hds]
      rw [if_pos hany]
      simp [List.filter_cons, hds]
    · have h1 : findSec (insertSec g (detOf r) r) s = none := by
        rw [findSec_insertSec_ne _ _ (Ne.symm hds), h]
      rw [ih _ _ h1]
      have hpr : (detOf r == s) = false := by
        simp [hds]
      simp [List.any_cons, List.filter_cons, hpr]

theorem nodup_keys_fold (rows : List Meas) :
    ∀ g : List (Value × List Meas), (g.map Prod.fst).Nodup →
      (((rows.foldl (fun acc r => insertSec acc (detOf r) r) g)).map Prod.fst).Nodup := by
  induction rows with
  | nil =>
    intro g h
    exact h
  | cons r rest ih =>
    intro g h
    simp only [List.foldl_cons]
    exact ih _ (nodup_keys_insertSec g (detOf r) r h)

theorem mem_keys_fold (rows : List Meas) :
    ∀ (g : List (Value × List Meas)) (s : Value),
      s ∈ ((rows.foldl (fun acc r => insertSec acc (detOf r) r) g)).map Prod.fst ↔
        s ∈ g.map Prod.fst ∨ s ∈ rows.map detOf := by
  induction rows with
  | nil =>
    intro g s
    simp
  | cons r rest ih =>
    intro g s
    simp only [List.foldl_cons]
    rw [ih, mem_keys_insertSec]
    simp only [List.map_cons, List.mem_cons]
    constructor
    · rintro ((h | h) | h)
      · exact Or.inl h
      · exact Or.inr (Or.inl h)
      · exact Or.inr (Or.inr h)
    · rintro (h | h | h)
      · exact Or.inl (Or.inl h)
      · exact Or.inl (Or.inr h)
      · exact Or.inr h

theorem findSec_of_mem (g : List (Value × List Meas))
    (hnd : (g.map Prod.fst).Nodup) (s : Value) (rs : List Meas)
    (h : (s, rs) ∈ g) : findSec g s = some rs := by
  induction g with
  | nil => cases h
  | cons p t ih =>
    obtain ⟨s0, rs0⟩ := p
    simp only [List.map_cons] at hnd
    rcases List.mem_cons.mp h with h0 | h0
    · rw [Prod.mk.injEq] at h0
      obtain ⟨h1, h2⟩ := h0
      subst h1
      subst h2
      simp [findSec]
    · have hs0 : s0 ≠ s := by
        intro he
        subst he
        have hmem : s0 ∈ t.map Prod.fst := by
          have := List.mem_map_of_mem Prod.fst h0
          simpa using this
        exact absurd hmem (List.nodup_cons.mp hnd).1
      simp only [findSec, hs0, if_false]
      exact ih (List.nodup_cons.mp hnd).2 h0

theorem filter_filter_and {α : Type} (p q : α → Bool) (l : List α) :
    (l.filter p).filter q = l.filter (fun a => p a && q a) := by
  induction l with
  | nil => rfl
  | cons a t ih =>
    by_cases hp : p a = true
    · by_cases hq : q a = true
      · simp [List.filter_cons, hp, hq, ih]
      · simp [List.filter_cons, hp, hq, ih]
    · simp [List.filter_cons, hp, ih]

theorem mkEntry_Section (p : Value × List Meas) : (mkEntry p).Section = p.1 := rfl

theorem anyDet (rows : List Meas) (s : Value) :
    rows.any (fun r => detOf r == s) = true ↔ s ∈ rows.map detOf := by
  rw [List.any_eq_true]
  constructor
  · rintro ⟨r, hr, he⟩
    rw [beq_iff_eq] at he
    exact he ▸ List.mem_map_of_mem detOf hr
  · intro hm
    obtain ⟨r, hr, he⟩ := List.mem_map.mp hm
    exact ⟨r, hr, by rw [beq_iff_eq]; exact he⟩

/-- Claim C6: `compute_section_and_global` produces one summary line per
detector type occurring in the rows; each line counts exactly the rows of
its section and, among them, exactly the `NOK` rows (verdict `-` never
counts as a failure), with section verdict `OK` iff the fail count is zero;
and the global verdict is `OK` iff every section verdict is `OK` (all
sections being summarized either way). -/
theorem claim_C6_aggregation (rows : List Meas) :
    (∀ s : Value, s ∈ (compute_section_and_global rows).1.map SectionEntry.Section ↔
        s ∈ rows.map detOf) ∧
    (∀ e ∈ (compute_section_and_global rows).1,
        e.NbLines = (rows.filter (fun r => detOf r == e.Section)).length ∧
        e.NbFAIL = (rows.filter (fun r => detOf r == e.Section && pyNOK r)).length ∧
        (e.Verdict = "OK" ↔ e.NbFAIL = 0)) ∧
    (∀ r ∈ rows, mgetD r "Conformity" (Value.str "") = Value.str "-" → pyNOK r = false) ∧
    ((compute_section_and_global rows).2 = "OK" ↔
        ∀ e ∈ (compute_section_and_global rows).1, e.Verdict = "OK") := by
  have hfst : (compute_section_and_global rows).1 = (groupSections rows).map mkEntry := rfl
  have hnd : ((groupSections rows).map Prod.fst).Nodup :=
    nodup_keys_fold rows [] (by simp)
  have hgrp : ∀ s rs, (s, rs) ∈ groupSections rows →
      rs = rows.filter (fun r => detOf r == s) := by
    intro s rs hmem
    have h1 : findSec (groupSections rows) s = some rs := findSec_of_mem _ hnd s rs hmem
    have hs : s ∈ rows.map detOf := by
      have := (mem_keys_fold rows [] s).mp (by
        have := List.mem_map_of_mem Prod.fst hmem
        simpa [groupSections] using this)
      simpa using this
    have h2 : findSec (groupSections rows) s =
        some (rows.filter (fun r => detOf r == s)) := by
      have h0 := findSec_fold_none rows [] s rfl
      rw [if_pos ((anyDet rows s).mpr hs)] at h0
      exact h0
    rw [h1] at h2
    injection h2
  refine ⟨?_, ?_, ?_, ?_⟩
  · intro s
    rw [hfst, List.map_map]
    have hcomp : (SectionEntry.Section ∘ mkEntry) = (Prod.fst :
        Value × List Meas → Value) := by
      funext p
      rfl
    rw [hcomp]
    have := mem_keys_fold rows [] s
    simpa [groupSections] using this
  · intro e hme
    rw [hfst] at hme
    obtain ⟨p, hp, he⟩ := List.mem_map.mp hme
    obtain ⟨s, rs⟩ := p
    have hrs := hgrp s rs hp
    have hsec : e.Section = s := by
      rw [← he]
      rfl
    have hlines : e.NbLines = rs.length := by
      rw [← he]
      rfl
    have hfail : e.NbFAIL = (rs.filter pyNOK).length := by
      rw [← he]
      rfl
    refine ⟨?_, ?_, ?_⟩
    · rw [hlines, hrs, hsec]
    · rw [hfail, hrs, hsec, filter_filter_and]
    · have hv : e.Verdict = if (rs.filter pyNOK).length == 0 then "OK" else "NOK" := by
        rw [← he]
        rfl
      rw [hv, hfail]
      by_cases h0 : (rs.filter pyNOK).length = 0
      · simp [h0]
      · have : ((rs.filter pyNOK).length == 0) = false := by
          simpa using h0
        rw [this]
        simp [h0]
  · intro r _ hc
    unfold pyNOK
    rw [hc]
    rfl
  · have hsnd : (compute_section_and_global rows).2 =
        if ((groupSections rows).map mkEntry).all (fun e => e.Verdict == "OK")
        then "OK" else "NOK" := rfl
    rw [hsnd, hfst]
    by_cases hall : ((groupSections rows).map mkEntry).all (fun e => e.Verdict == "OK") = true
    · rw [if_pos hall]
      constructor
      · intro _ e he
        have := (List.all_eq_true.mp hall) e he
        rwa [beq_iff_eq] at this
      · intro _
        rfl
    · rw [if_neg hall]
      constructor
      · intro h
        exact absurd h (by decide)
      · intro hforall
        exfalso
        apply hall
        rw [List.all_eq_true]
        intro e he
        rw [beq_iff_eq]
        exact hforall e he

/-- Witness for C6 at three concrete rows over two sections: the Peak
section has two rows, one failure, and a non-OK verdict, and the global
verdict is not OK. -/
theorem claim_C6_aggregation_witness :
    ((compute_section_and_global rows6).1.headD dfltEntry).NbLines = 2 ∧
    ((compute_section_and_global rows6).1.headD dfltEntry).NbFAIL = 1 ∧
    ¬ ((compute_section_and_global rows6).1.headD dfltEntry).Verdict = "OK" ∧
    ¬ (compute_section_and_global rows6).2 = "OK" := by
  obtain ⟨h1, h2, h3, h4⟩ := claim_C6_aggregation rows6
  have hmem : (compute_section_and_global rows6).1.headD dfltEntry ∈
      (compute_section_and_global rows6).1 := by decide
  obtain ⟨ha, hb, hc⟩ := h2 _ hmem
  refine ⟨?_, ?_, ?_, ?_⟩
  · rw [ha]
    decide
  · rw [hb]
    decide
  · intro hok
    have h0 := hc.mp hok
    rw [hb] at h0
    exact absurd h0 (by decide)
  · intro hok
    have hALL := (h4.mp hok) _ hmem
    have h0 := hc.mp hALL
    rw [hb] at h0
    exact absurd h0 (by decide)
